import Mathlib

/-!
Shallow embedding of the GeoCass hosting service (Python/FastAPI + SQLite)
for checking its natural-language specification.

The embedding models:
 - the credential service (src/app/auth.py): generate_api_key / verify_api_key;
 - the record store (src/app/database.py): daemon rows, update_daemon,
   upsert_daemon, directory queries, tag-count rebuild;
 - the directory/discovery routers (src/app/routers/directory.py) and the
   page-serving route (src/app/routers/pages.py).

Database tables are modelled as Lean lists of typed rows (SQLite rows come
back in rowid = insertion order; inserts append).  ISO-8601 timestamps are
modelled as naturals ordered as the datetimes are.  The SHA-256 digest used
for API keys is modelled as a parameter H together with, where a claim
needs collision-freeness, an injectivity hypothesis; json.loads of the
serialized tag / identity-metadata blobs is likewise a parameter.
-/

namespace GeoCass

/-! ## Data model: rows of the users, api_keys and daemons tables -/

/-- A row of the users table (the columns the modelled queries touch). -/
structure User where
  id : String
  username : String
  deriving Repr, DecidableEq

/-- A row of the api_keys table.  The key_prefix column is called key_pfx
here (a naming constraint of this development); tokens and prefixes are
lists of characters so that single-character mutations can be stated. -/
structure ApiKey where
  id : String
  user_id : String
  key_hash : String
  key_pfx : List Char
  label : Option String
  created_at : Nat
  last_used_at : Option Nat
  expires_at : Option Nat
  deriving Repr, DecidableEq

/-- A row of the daemons table. -/
structure Daemon where
  id : String
  user_id : String
  handle : String
  display_name : String
  tagline : Option String
  lineage : Option String
  visibility : String
  homepage_json : Option String
  stylesheet : Option String
  tags_json : Option String
  identity_meta_json : Option String
  created_at : Nat
  updated_at : Nat
  last_synced_at : Option Nat
  deriving Repr, DecidableEq

/-! ## Credential service (src/app/auth.py) -/

/-- Model of auth.generate_api_key.  settings.api_key_prefix is the constant
"gc_"; the cryptographically random part (secrets.token_urlsafe(32)) is a
parameter; H models hashlib.sha256(...).hexdigest().  Returns
(full_key, key_hash, first-8-characters). -/
def generate_api_key (H : List Char → String) (random_part : List Char) :
    List Char × String × List Char :=
  let full_key := "gc_".data ++ random_part
  (full_key, H full_key, full_key.take 8)

/-- Model of database.create_api_key: INSERT a new api_keys row
(expires_at and last_used_at are not set, hence NULL). -/
def create_api_key (store : List ApiKey) (key_id user_id : String)
    (key_hash : String) (pfx : List Char) (label : Option String) (now : Nat) :
    List ApiKey :=
  store ++ [{ id := key_id, user_id := user_id, key_hash := key_hash,
              key_pfx := pfx, label := label, created_at := now,
              last_used_at := none, expires_at := none }]

/-- The credential-issuance flow of the /login and /keys endpoints
(src/app/routers/users.py): generate_api_key then create_api_key.
Returns the plaintext (shown once) and the new store. -/
def issue_credential (H : List Char → String) (store : List ApiKey)
    (key_id user_id : String) (label : Option String)
    (random_part : List Char) (now : Nat) : List Char × List ApiKey :=
  let g := generate_api_key H random_part
  (g.1, create_api_key store key_id user_id g.2.1 g.2.2 label now)

/-- Model of database.get_api_keys_by_prefix: SELECT * FROM api_keys WHERE
key_prefix = ?, rows in insertion order. -/
def get_api_keys_by_pfx (store : List ApiKey) (pfx : List Char) : List ApiKey :=
  store.filter (fun r => r.key_pfx == pfx)

/-- The verification loop of auth.verify_api_key: walk the candidate rows;
on the first row whose stored hash equals the presented digest, return None
if that row's expiry is strictly in the past, else its id. -/
def verifyLoop (now : Nat) (khash : String) : List ApiKey → Option String
  | [] => none
  | r :: rs =>
    if r.key_hash = khash then
      match r.expires_at with
      | some t => if t < now then none else some r.id
      | none => some r.id
    else verifyLoop now khash rs

/-- The "Bearer " scheme handling of auth.verify_api_key: drop the first 7
characters when the token starts with "Bearer ". -/
def stripBearer (api_key : List Char) : List Char :=
  if ("Bearer ".data).isPrefixOf api_key then api_key.drop 7 else api_key

/-- Model of auth.verify_api_key: reject empty input, strip a leading
"Bearer ", look up candidates by the first 8 characters, compare the
digest H of the presented token against each candidate.  The side effect
update_api_key_last_used does not change the returned value and is not
modelled. -/
def verify_api_key (H : List Char → String) (store : List ApiKey) (now : Nat)
    (api_key : List Char) : Option String :=
  if api_key.isEmpty then none
  else
    let k := stripBearer api_key
    let matching := get_api_keys_by_pfx store (k.take 8)
    if matching.isEmpty then none
    else verifyLoop now (H k) matching

/-! ## Record store: daemon operations (src/app/database.py) -/

/-- The keyword arguments of database.update_daemon, restricted (as the
source's allow-list does) to the mutable columns.  An outer none means the
argument was not supplied; for nullable columns the inner Option is the
column value (Python callers may pass None explicitly). -/
structure DaemonPatch where
  display_name : Option String := none
  tagline : Option (Option String) := none
  lineage : Option (Option String) := none
  visibility : Option String := none
  homepage_json : Option (Option String) := none
  stylesheet : Option (Option String) := none
  tags_json : Option (Option String) := none
  identity_meta_json : Option (Option String) := none
  deriving Repr, DecidableEq

/-- True when at least one allow-listed field is supplied (source:
`if not updates`). -/
def patchNonempty (p : DaemonPatch) : Bool :=
  p.display_name.isSome || p.tagline.isSome || p.lineage.isSome ||
  p.visibility.isSome || p.homepage_json.isSome || p.stylesheet.isSome ||
  p.tags_json.isSome || p.identity_meta_json.isSome

/-- The row produced by update_daemon's UPDATE statement on one row:
supplied fields are overwritten, updated_at is set to now, and
last_synced_at is set to now exactly when homepage_json was supplied. -/
def applyPatch (p : DaemonPatch) (now : Nat) (d : Daemon) : Daemon :=
  { d with
    display_name := p.display_name.getD d.display_name
    tagline := p.tagline.getD d.tagline
    lineage := p.lineage.getD d.lineage
    visibility := p.visibility.getD d.visibility
    homepage_json := p.homepage_json.getD d.homepage_json
    stylesheet := p.stylesheet.getD d.stylesheet
    tags_json := p.tags_json.getD d.tags_json
    identity_meta_json := p.identity_meta_json.getD d.identity_meta_json
    updated_at := now
    last_synced_at := if p.homepage_json.isSome then some now else d.last_synced_at }

/-- Model of database.get_daemon_by_id (fetchone: first row matching). -/
def get_daemon_by_id (store : List Daemon) (daemon_id : String) : Option Daemon :=
  store.find? (fun d => d.id == daemon_id)

/-- Model of database.get_daemon_by_handle. -/
def get_daemon_by_handle (store : List Daemon) (user_id handle : String) :
    Option Daemon :=
  store.find? (fun d => d.user_id == user_id && d.handle == handle)

/-- Model of database.update_daemon: if no allow-listed field was supplied,
return the stored row unchanged; otherwise set the supplied fields plus
updated_at (and last_synced_at when homepage_json is among them) on the row
with the given id, and return the re-read row.  The pair is (returned row,
new table). -/
def update_daemon (store : List Daemon) (daemon_id : String) (p : DaemonPatch)
    (now : Nat) : Option Daemon × List Daemon :=
  if patchNonempty p then
    let store1 := store.map (fun d => if d.id == daemon_id then applyPatch p now d else d)
    (get_daemon_by_id store1 daemon_id, store1)
  else
    (get_daemon_by_id store daemon_id, store)

/-- The row INSERTed by database.create_daemon: visibility takes the column
default "public", the json columns are NULL, created_at = updated_at = now,
last_synced_at NULL. -/
def createdRow (daemon_id user_id handle display_name : String)
    (tagline lineage : Option String) (now : Nat) : Daemon :=
  { id := daemon_id, user_id := user_id, handle := handle,
    display_name := display_name, tagline := tagline, lineage := lineage,
    visibility := "public", homepage_json := none, stylesheet := none,
    tags_json := none, identity_meta_json := none,
    created_at := now, updated_at := now, last_synced_at := none }

/-- Model of database.create_daemon: INSERT the new row. -/
def create_daemon (store : List Daemon) (daemon_id user_id handle display_name : String)
    (tagline lineage : Option String) (now : Nat) : List Daemon :=
  store ++ [createdRow daemon_id user_id handle display_name tagline lineage now]

/-- Model of database.upsert_daemon.  In the source the keyword arguments
never contain display_name (it is a positional parameter), so p.display_name
is expected to be none; the existing branch re-adds display_name to the
patch.  newId models the freshly drawn uuid4; nowC and nowU are the clock
readings of the create and the update step. -/
def upsert_daemon (store : List Daemon) (user_id handle display_name : String)
    (p : DaemonPatch) (newId : String) (nowC nowU : Nat) :
    Option Daemon × List Daemon :=
  match get_daemon_by_handle store user_id handle with
  | some existing =>
      update_daemon store existing.id { p with display_name := some display_name } nowU
  | none =>
      let store1 := create_daemon store newId user_id handle display_name
        (p.tagline.getD none) (p.lineage.getD none) nowC
      update_daemon store1 newId p nowU

/-! ## Record store: directory queries (src/app/database.py) -/

/-- Python truthiness of an optional string parameter (`if tag:`):
None and the empty string are falsy. -/
def optTruthy : Option String → Option String
  | none => none
  | some s => if s.isEmpty then none else some s

/-- Bool substring test on character lists (SQL LIKE with %...% around a
quote-wrapped tag). -/
def containsSub (pat : List Char) : List Char → Bool
  | [] => pat.isEmpty
  | c :: cs => pat.isPrefixOf (c :: cs) || containsSub pat cs

/-- The tags_json LIKE '%"tag"%' predicate; a NULL column never matches. -/
def tagsLike (tag : String) (tags_json : Option String) : Bool :=
  match tags_json with
  | none => false
  | some s => containsSub ("\"" ++ tag ++ "\"").data s.data

/-- The shared WHERE predicate of get_public_daemons and
count_public_daemons: visibility = 'public', optional tag LIKE filter,
optional lineage equality filter (both applied only when truthy). -/
def publicMatch (tag lineage : Option String) (d : Daemon) : Bool :=
  d.visibility == "public" &&
  (match optTruthy tag with
   | none => true
   | some t => tagsLike t d.tags_json) &&
  (match optTruthy lineage with
   | none => true
   | some l => d.lineage == some l)

/-- Insert into a list sorted by le (a Bool total preorder). -/
def insertLe {α : Type} (le : α → α → Bool) (a : α) : List α → List α
  | [] => [a]
  | b :: bs => if le a b then a :: b :: bs else b :: insertLe le a bs

/-- Insertion sort by le; models the ORDER BY of the directory queries. -/
def sortLe {α : Type} (le : α → α → Bool) : List α → List α
  | [] => []
  | a :: as => insertLe le a (sortLe le as)

/-- ORDER BY d.updated_at DESC on joined (daemon, username) rows. -/
def recentLe (x y : Daemon × String) : Bool :=
  y.1.updated_at ≤ x.1.updated_at

/-- ORDER BY d.display_name ASC on joined (daemon, username) rows. -/
def nameLe (x y : Daemon × String) : Bool :=
  match compare x.1.display_name y.1.display_name with
  | Ordering.gt => false
  | _ => true

/-- The JOIN users u ON d.user_id = u.id of the directory queries: each
daemon row paired with its owner's username (dropped if no user row). -/
def joinUsers (users : List User) (daemons : List Daemon) : List (Daemon × String) :=
  daemons.filterMap (fun d =>
    (users.find? (fun u => u.id == d.user_id)).map (fun u => (d, u.username)))

/-- The filtered, sorted row set of database.get_public_daemons before
pagination is applied. -/
def directory_rows (users : List User) (daemons : List Daemon)
    (tag lineage : Option String) (sort : String) : List (Daemon × String) :=
  let rows := (joinUsers users daemons).filter (fun r => publicMatch tag lineage r.1)
  if sort == "recent" then sortLe recentLe rows
  else if sort == "name" then sortLe nameLe rows
  else rows

/-- Model of database.get_public_daemons: join, filter, sort, then
LIMIT ? OFFSET ?. -/
def get_public_daemons (users : List User) (daemons : List Daemon)
    (limit offset : Nat) (tag lineage : Option String) (sort : String) :
    List (Daemon × String) :=
  ((directory_rows users daemons tag lineage sort).drop offset).take limit

/-- Model of database.count_public_daemons: same WHERE predicate, no join,
no pagination. -/
def count_public_daemons (daemons : List Daemon) (tag lineage : Option String) : Nat :=
  (daemons.filter (publicMatch tag lineage)).length

/-- Python dict increment tag_counts[tag] = tag_counts.get(tag, 0) + 1 on an
association list. -/
def bumpTag : List (String × Nat) → String → List (String × Nat)
  | [], t => [(t, 1)]
  | (s, n) :: rest, t =>
      if s == t then (s, n + 1) :: rest else (s, n) :: bumpTag rest t

/-- One row's contribution in database.update_tag_counts: parse tags_json
(parseTags models json.loads; none models the caught JSONDecodeError /
TypeError, which skips the row) and bump each listed tag. -/
def addRowTags (parseTags : String → Option (List String))
    (counts : List (String × Nat)) (d : Daemon) : List (String × Nat) :=
  match d.tags_json with
  | none => counts
  | some s =>
    match parseTags s with
    | none => counts
    | some tags => tags.foldl bumpTag counts

/-- Model of database.update_tag_counts: scan rows WHERE visibility =
'public' AND tags_json IS NOT NULL, accumulate counts, and replace the
directory_tags table with the result. -/
def update_tag_counts (parseTags : String → Option (List String))
    (daemons : List Daemon) : List (String × Nat) :=
  (daemons.filter (fun d => d.visibility == "public" && d.tags_json.isSome)).foldl
    (addRowTags parseTags) []

/-- Model of database.get_daemon_by_path: daemons JOIN users on user_id,
WHERE username and handle match; fetchone. -/
def get_daemon_by_path (users : List User) (daemons : List Daemon)
    (username handle : String) : Option Daemon :=
  ((joinUsers users daemons).filter
    (fun r => r.2 == username && r.1.handle == handle)).head? |>.map Prod.fst

/-! ## Directory / discovery / page routers
(src/app/routers/directory.py, src/app/routers/pages.py) -/

/-- The public JSON shape built by the directory endpoints for one daemon
row.  parseTags models json.loads on the tags blob. -/
structure DaemonInfo where
  id : String
  handle : String
  display_name : String
  tagline : Option String
  lineage : Option String
  visibility : String
  tags : Option (List String)
  username : String
  url : String
  created_at : Nat
  updated_at : Nat
  deriving Repr, DecidableEq

/-- Build the DaemonInfo dict of the /api/v1/daemon and /api/v1/directory
responses from a row and its owner's username. -/
def mkDaemonInfo (parseTags : String → Option (List String)) (pubUrl : String)
    (d : Daemon) (username : String) : DaemonInfo :=
  { id := d.id, handle := d.handle, display_name := d.display_name,
    tagline := d.tagline, lineage := d.lineage, visibility := d.visibility,
    tags := d.tags_json.bind parseTags, username := username,
    url := pubUrl ++ "/" ++ username ++ "/" ++ d.handle,
    created_at := d.created_at, updated_at := d.updated_at }

/-- Model of directory.get_daemon_info (GET /api/v1/daemon/{username}/{handle}):
404 when the path lookup misses, 404 when the row is private, else the
public info. -/
def get_daemon_info (parseTags : String → Option (List String)) (pubUrl : String)
    (users : List User) (daemons : List Daemon) (username handle : String) :
    Except Nat DaemonInfo :=
  match get_daemon_by_path users daemons username handle with
  | none => Except.error 404
  | some d =>
    if d.visibility == "private" then Except.error 404
    else Except.ok (mkDaemonInfo parseTags pubUrl d username)

/-- Model of pages.serve_daemon_homepage (GET /{username}/{handle}): 404 on
a missing or private daemon, otherwise the row handed to render_page with
the "index" slug (rendering itself is presentation, out of scope). -/
def serve_daemon_homepage (users : List User) (daemons : List Daemon)
    (username handle : String) : Except Nat (Daemon × String) :=
  match get_daemon_by_path users daemons username handle with
  | none => Except.error 404
  | some d =>
    if d.visibility == "private" then Except.error 404
    else Except.ok (d, "index")

/-- The response of GET /api/v1/directory. -/
structure DirectoryResponse where
  daemons : List DaemonInfo
  total : Nat
  page : Nat
  per_page : Nat
  total_pages : Nat
  deriving Repr, DecidableEq

/-- The handler body of directory.browse_directory, after FastAPI has
validated the query parameters: offset = (page-1)*per_page, one page of
rows, the unpaginated count, and total_pages = math.ceil(total/per_page)
(written for naturals as (total + per_page - 1) / per_page, which equals
the exact rational ceiling for per_page > 0 — proved below). -/
def browse_core (parseTags : String → Option (List String)) (pubUrl : String)
    (users : List User) (daemons : List Daemon) (tag lineage : Option String)
    (sort : String) (page per_page : Nat) : DirectoryResponse :=
  let offset := (page - 1) * per_page
  let rows := get_public_daemons users daemons per_page offset tag lineage sort
  let total := count_public_daemons daemons tag lineage
  { daemons := rows.map (fun r => mkDaemonInfo parseTags pubUrl r.1 r.2),
    total := total, page := page, per_page := per_page,
    total_pages := (total + per_page - 1) / per_page }

/-- Model of the full GET /api/v1/directory endpoint including FastAPI's
declared query validation: Query(..., ge=1) on page, Query(..., ge=1,
le=100) on per_page and the sort pattern reject out-of-range requests with
a 422 validation error before the handler runs. -/
def browse_directory (parseTags : String → Option (List String)) (pubUrl : String)
    (users : List User) (daemons : List Daemon) (tag lineage : Option String)
    (sort : String) (page per_page : Int) : Except Nat DirectoryResponse :=
  if sort ≠ "recent" ∧ sort ≠ "name" then Except.error 422
  else if page < 1 then Except.error 422
  else if per_page < 1 ∨ 100 < per_page then Except.error 422
  else Except.ok (browse_core parseTags pubUrl users daemons tag lineage sort
    page.toNat per_page.toNat)

/-- The identity-metadata shape used by discovery; json .get with a []
default means a missing key is an empty list. -/
structure IdentityMeta where
  values : List String
  interests : List String
  looking_for : List String
  deriving Repr, DecidableEq

/-- The identity metadata of a row as discover_daemons sees it: a NULL
column or a json.loads failure (parseMeta = none) both yield the empty
dict, whose .get calls all give []. -/
def metaOf (parseMeta : String → Option IdentityMeta) (d : Daemon) : IdentityMeta :=
  match d.identity_meta_json with
  | none => { values := [], interests := [], looking_for := [] }
  | some s => (parseMeta s).getD { values := [], interests := [], looking_for := [] }

/-- Python truthiness of an optional list parameter (`if values:`). -/
def listTruthy : Option (List String) → Option (List String)
  | none => none
  | some [] => none
  | some (x :: xs) => some (x :: xs)

/-- any(v in meta_list for v in query_list). -/
def anyShared (query meta_list : List String) : Bool :=
  query.any (fun v => meta_list.contains v)

/-- The in-memory filter of discover_daemons: for each supplied (truthy)
filter list the row must share at least one element with the corresponding
identity-metadata list. -/
def passesFilters (parseMeta : String → Option IdentityMeta)
    (values interests looking_for : Option (List String)) (d : Daemon) : Bool :=
  let m := metaOf parseMeta d
  (match listTruthy values with
   | none => true
   | some vs => anyShared vs m.values) &&
  (match listTruthy interests with
   | none => true
   | some is_ => anyShared is_ m.interests) &&
  (match listTruthy looking_for with
   | none => true
   | some ls => anyShared ls m.looking_for)

/-- The discover loop: append each passing row, stopping as soon as the
result has reached limit entries (the source checks len(results) >= limit
after each append). -/
def filterLimit {α : Type} (p : α → Bool) : Nat → List α → List α
  | _, [] => []
  | limit, a :: as =>
    if p a then a :: (if limit ≤ 1 then [] else filterLimit p (limit - 1) as)
    else filterLimit p limit as

/-- The candidate query of discover_daemons: public daemons with a non-NULL
identity_meta_json, optional lineage filter, ORDER BY updated_at DESC,
LIMIT limit * 3. -/
def discover_candidates (users : List User) (daemons : List Daemon)
    (lineage : Option String) (limit : Nat) : List (Daemon × String) :=
  let rows := (joinUsers users daemons).filter (fun r =>
    r.1.visibility == "public" && r.1.identity_meta_json.isSome &&
    (match optTruthy lineage with
     | none => true
     | some l => r.1.lineage == some l))
  (sortLe recentLe rows).take (limit * 3)

/-- One entry of the discovery response. -/
structure DiscoveryEntry where
  id : String
  handle : String
  display_name : String
  tagline : Option String
  lineage : Option String
  username : String
  url : String
  updated_at : Nat
  deriving Repr, DecidableEq

/-- Build a discovery response entry from a joined row. -/
def mkDiscoveryEntry (pubUrl : String) (r : Daemon × String) : DiscoveryEntry :=
  { id := r.1.id, handle := r.1.handle, display_name := r.1.display_name,
    tagline := r.1.tagline, lineage := r.1.lineage, username := r.2,
    url := pubUrl ++ "/" ++ r.2 ++ "/" ++ r.1.handle,
    updated_at := r.1.updated_at }

/-- Model of directory.discover_daemons (GET /api/v1/discover), after
parameter validation: fetch 3x-over-sampled candidates, filter in memory by
the any-match predicates, stop at limit. -/
def discover_daemons (parseMeta : String → Option IdentityMeta) (pubUrl : String)
    (users : List User) (daemons : List Daemon) (lineage : Option String)
    (values interests looking_for : Option (List String)) (limit : Nat) :
    List DiscoveryEntry :=
  (filterLimit (fun r => passesFilters parseMeta values interests looking_for r.1)
      limit (discover_candidates users daemons lineage limit)).map
    (mkDiscoveryEntry pubUrl)

/-! ## Single-character mutations (for the credential claims) -/

/-- Number of positions at which two equal-length character lists differ. -/
def diffCount : List Char → List Char → Nat
  | [], _ => 0
  | _, [] => 0
  | a :: as, b :: bs => (if a = b then 0 else 1) + diffCount as bs

/-- s differs from t in exactly one character (same length, one position). -/
def OneCharMutation (s t : List Char) : Prop :=
  s.length = t.length ∧ diffCount s t = 1

/-- The api_keys row written by issue_credential (for stating its effect). -/
def issuedKey (H : List Char → String) (key_id user_id : String)
    (label : Option String) (rand : List Char) (now : Nat) : ApiKey :=
  { id := key_id, user_id := user_id, key_hash := H ("gc_".data ++ rand),
    key_pfx := ("gc_".data ++ rand).take 8, label := label, created_at := now,
    last_used_at := none, expires_at := none }

/-- A concrete stored credential whose expiry timestamp is 5 (used to probe
the expiry boundary: verification at now = 5 and at now = 7). -/
def expiresAt5Key : ApiKey :=
  { id := "k1", user_id := "u1", key_hash := String.mk "gc_x".data,
    key_pfx := ("gc_x".data).take 8, label := none, created_at := 0,
    last_used_at := none, expires_at := some 5 }

/-- Every field supplied in the patch carries the supplied value on d. -/
def PatchApplied (p : DaemonPatch) (d : Daemon) : Prop :=
  (∀ v, p.display_name = some v → d.display_name = v) ∧
  (∀ v, p.tagline = some v → d.tagline = v) ∧
  (∀ v, p.lineage = some v → d.lineage = v) ∧
  (∀ v, p.visibility = some v → d.visibility = v) ∧
  (∀ v, p.homepage_json = some v → d.homepage_json = v) ∧
  (∀ v, p.stylesheet = some v → d.stylesheet = v) ∧
  (∀ v, p.tags_json = some v → d.tags_json = v) ∧
  (∀ v, p.identity_meta_json = some v → d.identity_meta_json = v)

/-- Frame condition from old to new: identity columns and created_at are
untouched, and every field the patch does not supply keeps its old value. -/
def PatchFrame (p : DaemonPatch) (old new : Daemon) : Prop :=
  new.id = old.id ∧ new.user_id = old.user_id ∧ new.handle = old.handle ∧
  new.created_at = old.created_at ∧
  (p.display_name = none → new.display_name = old.display_name) ∧
  (p.tagline = none → new.tagline = old.tagline) ∧
  (p.lineage = none → new.lineage = old.lineage) ∧
  (p.visibility = none → new.visibility = old.visibility) ∧
  (p.homepage_json = none → new.homepage_json = old.homepage_json) ∧
  (p.stylesheet = none → new.stylesheet = old.stylesheet) ∧
  (p.tags_json = none → new.tags_json = old.tags_json) ∧
  (p.identity_meta_json = none → new.identity_meta_json = old.identity_meta_json)

/-- A concrete stored daemon row used by witnesses. -/
def d0 : Daemon :=
  { id := "d1", user_id := "u1", handle := "h", display_name := "D",
    tagline := none, lineage := none, visibility := "public",
    homepage_json := none, stylesheet := none, tags_json := none,
    identity_meta_json := none, created_at := 0, updated_at := 0,
    last_synced_at := none }

/-- A patch supplying only the homepage document. -/
def homepagePatch : DaemonPatch := { homepage_json := some (some "hp") }

/-- A patch supplying only the tagline, with the same value (None) the row
d0 already stores: a semantically no-op update. -/
def noopPatch : DaemonPatch := { tagline := some none }

/-- A concrete user row used by witnesses. -/
def user0 : User := { id := "u0", username := "alice" }

/-- A public daemon owned by user0, with updated_at = i (used to build a
45-row directory for the pagination witness). -/
def mkPubDaemon (i : Nat) : Daemon :=
  { id := "d", user_id := "u0", handle := "h", display_name := "D",
    tagline := none, lineage := none, visibility := "public",
    homepage_json := none, stylesheet := none, tags_json := none,
    identity_meta_json := none, created_at := 0, updated_at := i,
    last_synced_at := none }

/-- A table of 45 public daemons. -/
def store45 : List Daemon := (List.range 45).map mkPubDaemon

/-- A concrete private daemon owned by user0. -/
def privD : Daemon :=
  { d0 with id := "dp", user_id := "u0", handle := "p", visibility := "private" }

/-- A concrete unlisted daemon owned by user0. -/
def unlD : Daemon :=
  { d0 with id := "du", user_id := "u0", handle := "u", visibility := "unlisted" }

/-- Concrete identity metadata with values ["a","b"] (discovery witness). -/
def metaAB : IdentityMeta :=
  { values := ["a", "b"], interests := [], looking_for := [] }

/-- A parse function returning metaAB for every blob. -/
def pmAB : String → Option IdentityMeta := fun _ => some metaAB

/-- d0 with a non-NULL identity metadata blob. -/
def dMeta : Daemon := { d0 with identity_meta_json := some "m" }

/-! ## Helper lemmas -/

theorem issue_credential_eq (H : List Char → String) (store : List ApiKey)
    (key_id user_id : String) (label : Option String) (rand : List Char) (now : Nat) :
    issue_credential H store key_id user_id label rand now
      = ("gc_".data ++ rand, store ++ [issuedKey H key_id user_id label rand now]) := rfl

theorem diffCount_self (s : List Char) : diffCount s s = 0 := by
  induction s with
  | nil => rfl
  | cons a as ih => simp [diffCount, ih]

theorem ne_of_oneCharMutation {s t : List Char} (h : OneCharMutation s t) : s ≠ t := by
  intro hst
  subst hst
  have := h.2
  rw [diffCount_self] at this
  exact one_ne_zero this.symm

theorem isPrefixOf_cons_false {a b : Char} (as bs : List Char) (h : (a == b) = false) :
    ((a :: as).isPrefixOf (b :: bs)) = false := by
  simp only [List.isPrefixOf, h, Bool.false_and]

theorem bearer_data_eq : "Bearer ".data = 'B' :: 'e' :: 'a' :: 'r' :: 'e' :: 'r' :: ' ' :: [] := rfl

theorem bearer_not_prefix_of_g (rest : List Char) :
    (("Bearer ".data).isPrefixOf ('g' :: rest)) = false := by
  rw [bearer_data_eq]
  exact isPrefixOf_cons_false _ _ (by decide)

/-- A one-character mutation of a token that starts with "gc_" cannot start
with "Bearer ": the first two characters would both have to change. -/
theorem bearer_not_prefix_of_mutation {rand tok : List Char}
    (h : OneCharMutation ("gc_".data ++ rand) tok) :
    (("Bearer ".data).isPrefixOf tok) = false := by
  have hfull : "gc_".data ++ rand = 'g' :: 'c' :: '_' :: rand := rfl
  rw [hfull] at h
  by_contra hb
  rw [Bool.not_eq_false] at hb
  rw [bearer_data_eq] at hb
  match tok, hb with
  | m0 :: m1 :: ms, hb =>
    simp only [List.isPrefixOf, Bool.and_eq_true, beq_iff_eq] at hb
    obtain ⟨h0, h1, _⟩ := hb
    subst h0
    subst h1
    have h2 := h.2
    simp only [diffCount] at h2
    rw [if_neg (by decide), if_neg (by decide)] at h2
    omega

theorem verifyLoop_eq_none {now : Nat} {khash : String} {l : List ApiKey}
    (h : ∀ r ∈ l, r.key_hash ≠ khash) : verifyLoop now khash l = none := by
  induction l with
  | nil => rfl
  | cons r rs ih =>
    have hr : r.key_hash ≠ khash := h r (List.mem_cons_self r rs)
    simp only [verifyLoop, if_neg hr]
    exact ih fun x hx => h x (List.mem_cons_of_mem r hx)

theorem verifyLoop_append_of_none {now : Nat} {khash : String} {l1 l2 : List ApiKey}
    (h : ∀ r ∈ l1, r.key_hash ≠ khash) :
    verifyLoop now khash (l1 ++ l2) = verifyLoop now khash l2 := by
  induction l1 with
  | nil => rfl
  | cons r rs ih =>
    have hr : r.key_hash ≠ khash := h r (List.mem_cons_self r rs)
    simp only [List.cons_append, verifyLoop, if_neg hr]
    exact ih fun x hx => h x (List.mem_cons_of_mem r hx)

/-- In the loop, the first hash match decides: if every hash match in the
candidate list is the row r, and r is expired, the loop rejects. -/
theorem verifyLoop_expired {now : Nat} {khash : String} {r : ApiKey} {t : Nat}
    (hexp : r.expires_at = some t) (hlt : t < now) {l : List ApiKey}
    (huniq : ∀ x ∈ l, x.key_hash = khash → x = r) :
    verifyLoop now khash l = none := by
  induction l with
  | nil => rfl
  | cons a as ih =>
    by_cases ha : a.key_hash = khash
    · have : a = r := huniq a (List.mem_cons_self a as) ha
      subst this
      simp only [verifyLoop, if_pos ha, hexp, if_pos hlt]
    · simp only [verifyLoop, if_neg ha]
      exact ih fun x hx => huniq x (List.mem_cons_of_mem a hx)

theorem verify_api_key_no_bearer (H : List Char → String) (store : List ApiKey)
    (now : Nat) (k : List Char) (hk : k.isEmpty = false)
    (hnb : (("Bearer ".data).isPrefixOf k) = false) :
    verify_api_key H store now k =
      (if (get_api_keys_by_pfx store (k.take 8)).isEmpty then none
       else verifyLoop now (H k) (get_api_keys_by_pfx store (k.take 8))) := by
  simp only [verify_api_key, stripBearer, hk, hnb, Bool.false_eq_true, if_false]

theorem verify_api_key_eq_strip (H : List Char → String) (store : List ApiKey)
    (now : Nat) (api_key : List Char) (hk : api_key.isEmpty = false) :
    verify_api_key H store now api_key =
      (if (get_api_keys_by_pfx store ((stripBearer api_key).take 8)).isEmpty then none
       else verifyLoop now (H (stripBearer api_key))
         (get_api_keys_by_pfx store ((stripBearer api_key).take 8))) := by
  simp only [verify_api_key, hk, Bool.false_eq_true, if_false]

/-- The first hash match in the loop is within the candidate list, and is
only accepted with an absent or not-yet-passed expiry. -/
theorem verifyLoop_sound {now : Nat} {khash : String} {l : List ApiKey} {kid : String}
    (h : verifyLoop now khash l = some kid) :
    ∃ r ∈ l, r.id = kid ∧ r.key_hash = khash ∧
      (r.expires_at = none ∨ ∃ t, r.expires_at = some t ∧ ¬ t < now) := by
  induction l with
  | nil => exact absurd h (by simp [verifyLoop])
  | cons a as ih =>
    by_cases ha : a.key_hash = khash
    · simp only [verifyLoop, if_pos ha] at h
      match hexp : a.expires_at with
      | some t =>
        rw [hexp] at h
        by_cases hlt : t < now
        · simp [hlt] at h
        · simp only [hlt, if_false, Option.some.injEq] at h
          exact ⟨a, List.mem_cons_self a as, h, ha, Or.inr ⟨t, hexp, hlt⟩⟩
      | none =>
        rw [hexp] at h
        simp only [Option.some.injEq] at h
        exact ⟨a, List.mem_cons_self a as, h, ha, Or.inl hexp⟩
    · simp only [verifyLoop, if_neg ha] at h
      obtain ⟨r, hr, hrest⟩ := ih h
      exact ⟨r, List.mem_cons_of_mem a hr, hrest⟩

/-! ## C1: issuance / verification round trip -/

/-- C1.  A secret issued by the credential-issuance flow (generate_api_key
plus create_api_key) verifies to the id of the stored credential of the
issuing account, and any token differing from the plaintext in exactly one
character verifies to none.  The SHA-256 digest is a parameter H; the claim
needs H collision-free (injective), and the secret fresh: no previously
stored credential carries the digest of the plaintext (or, for the mutation
half, of the mutated token) — cryptographically random secrets satisfy
both. -/
theorem issued_key_roundtrip
    (H : List Char → String) (Hinj : Function.Injective H)
    (store : List ApiKey) (key_id user_id : String) (label : Option String)
    (rand : List Char) (tIssue now : Nat)
    (hfresh : ∀ r ∈ store, r.key_hash ≠ H ("gc_".data ++ rand)) :
    verify_api_key H (issue_credential H store key_id user_id label rand tIssue).2 now
        (issue_credential H store key_id user_id label rand tIssue).1 = some key_id ∧
    (∃ r ∈ (issue_credential H store key_id user_id label rand tIssue).2,
        r.id = key_id ∧ r.user_id = user_id ∧ r.key_hash = H ("gc_".data ++ rand)) ∧
    (∀ tok : List Char, OneCharMutation ("gc_".data ++ rand) tok →
      (∀ r ∈ store, r.key_hash ≠ H tok) →
      verify_api_key H (issue_credential H store key_id user_id label rand tIssue).2
        now tok = none) := by
  rw [issue_credential_eq]
  have hk : ("gc_".data ++ rand).isEmpty = false := rfl
  have hmatch : get_api_keys_by_pfx
      (store ++ [issuedKey H key_id user_id label rand tIssue])
      (("gc_".data ++ rand).take 8)
      = store.filter (fun r => r.key_pfx == ("gc_".data ++ rand).take 8)
        ++ [issuedKey H key_id user_id label rand tIssue] := by
    simp [get_api_keys_by_pfx, List.filter_append, issuedKey]
  refine ⟨?_, ?_, ?_⟩
  · rw [verify_api_key_no_bearer H _ now _ hk (bearer_not_prefix_of_g rand), hmatch]
    have hne : (store.filter (fun r => r.key_pfx == ("gc_".data ++ rand).take 8)
        ++ [issuedKey H key_id user_id label rand tIssue]).isEmpty = false := by
      simp
    rw [if_neg (by simp [hne])]
    rw [verifyLoop_append_of_none (fun r hr =>
      hfresh r (List.mem_of_mem_filter hr))]
    simp [verifyLoop, issuedKey]
  · exact ⟨issuedKey H key_id user_id label rand tIssue,
      List.mem_append_right _ (List.mem_singleton.mpr rfl), rfl, rfl, rfl⟩
  · intro tok hmut hfresh2
    have hlen := hmut.1
    have htokne : tok ≠ [] := by
      intro h
      subst h
      simp [List.length_append] at hlen
    have hktok : tok.isEmpty = false := by
      cases tok with
      | nil => exact absurd rfl htokne
      | cons a as => rfl
    rw [verify_api_key_no_bearer H _ now _ hktok (bearer_not_prefix_of_mutation hmut)]
    have hall : ∀ r ∈ get_api_keys_by_pfx
        (store ++ [issuedKey H key_id user_id label rand tIssue]) (tok.take 8),
        r.key_hash ≠ H tok := by
      intro r hr
      have hr2 : r ∈ store ++ [issuedKey H key_id user_id label rand tIssue] :=
        List.mem_of_mem_filter hr
      rcases List.mem_append.mp hr2 with h | h
      · exact hfresh2 r h
      · have heq : r = issuedKey H key_id user_id label rand tIssue := by
          simpa using h
        subst heq
        intro hEq
        exact ne_of_oneCharMutation hmut (Hinj hEq)
    by_cases hemp : (get_api_keys_by_pfx
        (store ++ [issuedKey H key_id user_id label rand tIssue]) (tok.take 8)).isEmpty
    · rw [if_pos hemp]
    · rw [if_neg hemp]
      exact verifyLoop_eq_none hall

/-- Witness for C1 at a concrete issuance: H is String.mk (injective),
empty prior store, random part ['x']. -/
theorem issued_key_roundtrip_witness :
    verify_api_key String.mk (issue_credential String.mk [] "k1" "u1" none ['x'] 0).2 0
        (issue_credential String.mk [] "k1" "u1" none ['x'] 0).1 = some "k1" ∧
    (∃ r ∈ (issue_credential String.mk [] "k1" "u1" none ['x'] 0).2,
        r.id = "k1" ∧ r.user_id = "u1" ∧ r.key_hash = String.mk ("gc_".data ++ ['x'])) ∧
    (∀ tok : List Char, OneCharMutation ("gc_".data ++ ['x']) tok →
      (∀ r ∈ ([] : List ApiKey), r.key_hash ≠ String.mk tok) →
      verify_api_key String.mk (issue_credential String.mk [] "k1" "u1" none ['x'] 0).2
        0 tok = none) :=
  issued_key_roundtrip String.mk (fun a b h => congrArg String.data h)
    [] "k1" "u1" none ['x'] 0 0 (by simp)

/-! ## C2: expiry handling in verify_api_key -/

/-- C2 counterexample for the claim as stated.  A credential whose expiry
timestamp equals the current time is accepted by verify_api_key (the source
only rejects expires_at strictly less than utcnow), yet its expiry is
neither absent nor in the future — so "accepted only when its expiry
timestamp is absent or in the future" is false at this input. -/
theorem verify_expiry_boundary_cex :
    verify_api_key String.mk [expiresAt5Key] 5 ("gc_x".data) = some "k1" ∧
    expiresAt5Key.expires_at = some 5 ∧ ¬ (5 : Nat) < 5 := by
  refine ⟨by decide, rfl, by omega⟩

/-- C2 amended.  First half as claimed: an expired credential (expiry
present and strictly in the past) is rejected on its own plaintext even
though the digest matches the stored hash (hhash); the uniqueness
hypothesis huniq says no other stored credential carries that digest.
Second half amended at the boundary: a token is accepted only when the
matched credential's expiry is absent or has not strictly passed (now ≤ t;
the source accepts a credential expiring exactly at the current instant). -/
theorem verify_expiry_checks (H : List Char → String) (store : List ApiKey)
    (now : Nat) :
    (∀ k r t, r ∈ store →
      k.isEmpty = false →
      r.key_hash = H (stripBearer k) →
      (∀ x ∈ store, x.key_hash = H (stripBearer k) → x = r) →
      r.expires_at = some t → t < now →
      verify_api_key H store now k = none) ∧
    (∀ k kid, verify_api_key H store now k = some kid →
      ∃ r ∈ store, r.id = kid ∧ r.key_hash = H (stripBearer k) ∧
        (r.expires_at = none ∨ ∃ t, r.expires_at = some t ∧ ¬ t < now)) := by
  constructor
  · intro k r t hr hk hhash huniq hexp hlt
    rw [verify_api_key_eq_strip H store now k hk]
    by_cases hemp : (get_api_keys_by_pfx store ((stripBearer k).take 8)).isEmpty
    · rw [if_pos hemp]
    · rw [if_neg hemp]
      exact verifyLoop_expired hexp hlt fun x hx hxh =>
        huniq x (List.mem_of_mem_filter hx) hxh
  · intro k kid hv
    by_cases hke : k.isEmpty
    · simp [verify_api_key, hke] at hv
    · rw [verify_api_key_eq_strip H store now k (by simpa using hke)] at hv
      by_cases hemp : (get_api_keys_by_pfx store ((stripBearer k).take 8)).isEmpty
      · rw [if_pos hemp] at hv
        exact absurd hv (by simp)
      · rw [if_neg hemp] at hv
        obtain ⟨r, hr, hrest⟩ := verifyLoop_sound hv
        exact ⟨r, List.mem_of_mem_filter hr, hrest⟩

/-- Witness for C2 (amended) at a concrete input: the stored credential
expired at 5, verification at now = 7 rejects its own plaintext. -/
theorem verify_expiry_checks_witness :
    verify_api_key String.mk [expiresAt5Key] 7 ("gc_x".data) = none :=
  (verify_expiry_checks String.mk [expiresAt5Key] 7).1 ("gc_x".data) expiresAt5Key 5
    (List.mem_singleton.mpr rfl) rfl rfl
    (fun x hx _ => List.mem_singleton.mp hx) rfl (by omega)

/-! ## Record store lemmas: update_daemon and upsert_daemon -/

theorem patchApplied_applyPatch (p : DaemonPatch) (now : Nat) (d : Daemon) :
    PatchApplied p (applyPatch p now d) := by
  refine ⟨?_, ?_, ?_, ?_, ?_, ?_, ?_, ?_⟩ <;>
    · intro v hv
      simp [applyPatch, hv]

theorem patchFrame_applyPatch (p : DaemonPatch) (now : Nat) (d : Daemon) :
    PatchFrame p d (applyPatch p now d) := by
  refine ⟨rfl, rfl, rfl, rfl, ?_, ?_, ?_, ?_, ?_, ?_, ?_, ?_⟩ <;>
    · intro hv
      simp [applyPatch, hv]

theorem find?_cons_pos {α : Type} (p : α → Bool) (a : α) (l : List α)
    (h : p a = true) : List.find? p (a :: l) = some a := by
  simp [List.find?, h]

theorem find?_cons_neg {α : Type} (p : α → Bool) (a : α) (l : List α)
    (h : p a = false) : List.find? p (a :: l) = List.find? p l := by
  simp [List.find?, h]

theorem find?_map_patch (store : List Daemon) (did : String) (f : Daemon → Daemon)
    (hf : ∀ d, (f d).id = d.id) :
    (store.map (fun d => if d.id == did then f d else d)).find? (fun d => d.id == did)
      = (store.find? (fun d => d.id == did)).map f := by
  induction store with
  | nil => rfl
  | cons d ds ih =>
    by_cases hd : (d.id == did) = true
    · rw [List.map_cons, if_pos hd,
        find?_cons_pos (fun x => x.id == did) (f d)
          (ds.map (fun d => if d.id == did then f d else d))
          (by show ((f d).id == did) = true; rw [hf d]; exact hd),
        find?_cons_pos (fun x => x.id == did) d ds hd, Option.map_some']
    · rw [List.map_cons, if_neg hd,
        find?_cons_neg (fun x => x.id == did) d
          (ds.map (fun d => if d.id == did then f d else d)) (by simpa using hd),
        find?_cons_neg (fun x => x.id == did) d ds (by simpa using hd), ih]

theorem find?_id_of_nodup (store : List Daemon)
    (hids : (store.map Daemon.id).Nodup) {e : Daemon} (he : e ∈ store) :
    store.find? (fun d => d.id == e.id) = some e := by
  induction store with
  | nil => cases he
  | cons a as ih =>
    have hsplit : (∀ x ∈ as, ¬ x.id = a.id) ∧ (as.map Daemon.id).Nodup := by
      simpa using hids
    rcases List.mem_cons.mp he with rfl | hmem
    · exact find?_cons_pos _ _ _ (by simp)
    · have ha : (a.id == e.id) = false := by
        simp only [beq_eq_false_iff_ne, ne_eq]
        intro hEq
        exact hsplit.1 e hmem hEq.symm
      rw [find?_cons_neg (fun d => d.id == e.id) a as ha]
      exact ih hsplit.2 hmem

theorem find?_append_of_none {α : Type} {l1 l2 : List α} {p : α → Bool}
    (h : ∀ x ∈ l1, p x = false) : (l1 ++ l2).find? p = l2.find? p := by
  induction l1 with
  | nil => rfl
  | cons a as ih =>
    rw [List.cons_append, find?_cons_neg _ _ _ (h a (List.mem_cons_self a as))]
    exact ih fun x hx => h x (List.mem_cons_of_mem a hx)

theorem mem_map_patch {store : List Daemon} {x : Daemon} (hx : x ∈ store)
    {did : String} (hne : ¬ x.id = did) (f : Daemon → Daemon) :
    x ∈ store.map (fun d => if d.id == did then f d else d) := by
  have hfix : (fun d => if d.id == did then f d else d) x = x := by
    simp [hne]
  exact hfix ▸ List.mem_map_of_mem _ hx

theorem update_daemon_found (store : List Daemon) (did : String) (p : DaemonPatch)
    (now : Nat) (hne : patchNonempty p = true) :
    (update_daemon store did p now).1
      = (store.find? (fun d => d.id == did)).map (applyPatch p now) ∧
    (update_daemon store did p now).2
      = store.map (fun d => if d.id == did then applyPatch p now d else d) := by
  constructor
  · simp only [update_daemon, if_pos hne, get_daemon_by_id]
    exact find?_map_patch store did _ (fun d => rfl)
  · simp only [update_daemon, if_pos hne]

/-! ## C4: timestamp effects of update_daemon -/

/-- C4.  When update_daemon is given the homepage document, the returned
row has updated_at and last_synced_at both equal to the same current time;
when it is given only non-homepage allow-listed fields (a nonempty patch
without homepage_json), updated_at is refreshed while last_synced_at and
every unsupplied field keep their stored values. -/
theorem update_daemon_sync_timestamps
    (store : List Daemon) (did : String) (p : DaemonPatch) (now : Nat) (e : Daemon)
    (he : get_daemon_by_id store did = some e) :
    (p.homepage_json.isSome = true →
      (update_daemon store did p now).1 = some (applyPatch p now e) ∧
      (applyPatch p now e).updated_at = now ∧
      (applyPatch p now e).last_synced_at = some now) ∧
    (p.homepage_json = none → patchNonempty p = true →
      (update_daemon store did p now).1 = some (applyPatch p now e) ∧
      (applyPatch p now e).updated_at = now ∧
      (applyPatch p now e).last_synced_at = e.last_synced_at ∧
      PatchFrame p e (applyPatch p now e) ∧
      PatchApplied p (applyPatch p now e)) := by
  rw [get_daemon_by_id] at he
  constructor
  · intro hh
    have hne : patchNonempty p = true := by simp [patchNonempty, hh]
    have h1 := (update_daemon_found store did p now hne).1
    rw [he, Option.map_some'] at h1
    exact ⟨h1, rfl, by simp [applyPatch, hh]⟩
  · intro hh hne
    have h1 := (update_daemon_found store did p now hne).1
    rw [he, Option.map_some'] at h1
    exact ⟨h1, rfl, by simp [applyPatch, hh],
      patchFrame_applyPatch p now e, patchApplied_applyPatch p now e⟩

/-- Witness for C4: on the concrete row d0, a homepage-only patch at time 9
sets both timestamps to 9; a tagline-only patch at time 9 bumps updated_at
and leaves last_synced_at and the other fields as stored. -/
theorem update_daemon_sync_timestamps_witness :
    ((update_daemon [d0] "d1" homepagePatch 9).1 = some (applyPatch homepagePatch 9 d0) ∧
      (applyPatch homepagePatch 9 d0).updated_at = 9 ∧
      (applyPatch homepagePatch 9 d0).last_synced_at = some 9) ∧
    ((update_daemon [d0] "d1" noopPatch 9).1 = some (applyPatch noopPatch 9 d0) ∧
      (applyPatch noopPatch 9 d0).updated_at = 9 ∧
      (applyPatch noopPatch 9 d0).last_synced_at = d0.last_synced_at ∧
      PatchFrame noopPatch d0 (applyPatch noopPatch 9 d0) ∧
      PatchApplied noopPatch (applyPatch noopPatch 9 d0)) :=
  ⟨(update_daemon_sync_timestamps [d0] "d1" homepagePatch 9 d0 rfl).1 rfl,
   (update_daemon_sync_timestamps [d0] "d1" noopPatch 9 d0 rfl).2 rfl rfl⟩

/-! ## C10: updated_at bump on every effective call, no-op short circuit -/

/-- C10.  A call supplying at least one allow-listed field always sets the
returned row's updated_at to the current time — the statement quantifies
over every patch, including one whose supplied values all equal the stored
values (the source UPDATEs unconditionally) — while a call supplying no
allow-listed field returns the stored record and leaves the table
untouched. -/
theorem update_daemon_bump_or_noop
    (store : List Daemon) (did : String) (p : DaemonPatch) (now : Nat) (e : Daemon)
    (he : get_daemon_by_id store did = some e) :
    (patchNonempty p = true →
      (update_daemon store did p now).1 = some (applyPatch p now e) ∧
      (applyPatch p now e).updated_at = now) ∧
    (patchNonempty p = false →
      update_daemon store did p now = (some e, store)) := by
  constructor
  · intro hne
    have h1 := (update_daemon_found store did p now hne).1
    rw [get_daemon_by_id] at he
    rw [he, Option.map_some'] at h1
    exact ⟨h1, rfl⟩
  · intro hne
    simp only [update_daemon, hne, Bool.false_eq_true, if_false, he]

/-- Witness for C10: the no-op patch (tagline supplied with its stored
value None) on d0 still returns updated_at = 9 ≠ 0, while the empty patch
returns d0 itself with the table unchanged. -/
theorem update_daemon_bump_or_noop_witness :
    ((update_daemon [d0] "d1" noopPatch 9).1 = some (applyPatch noopPatch 9 d0) ∧
      (applyPatch noopPatch 9 d0).updated_at = 9) ∧
    update_daemon [d0] "d1" {} 9 = (some d0, [d0]) :=
  ⟨(update_daemon_bump_or_noop [d0] "d1" noopPatch 9 d0 rfl).1 rfl,
   (update_daemon_bump_or_noop [d0] "d1" {} 9 d0 rfl).2 rfl⟩

/-! ## C3: upsert_daemon semantics -/

/-- C3.  If a row with (user_id, handle) exists, upsert_daemon overwrites
exactly the supplied allow-listed fields on that row (display_name always,
being re-added by the source), bumps updated_at (and last_synced_at when
the homepage document is supplied), and touches nothing else; if no such
row exists, it creates one and applies the same patch, so afterwards a row
with (user_id, handle) exists carrying every supplied field value.
hp models the source calling convention (display_name is positional, never
in kwargs); hids is the primary-key invariant; hfreshId the freshness of
the drawn uuid. -/
theorem upsert_daemon_semantics
    (store : List Daemon) (user_id handle display_name : String) (p : DaemonPatch)
    (newId : String) (nowC nowU : Nat)
    (hp : p.display_name = none)
    (hids : (store.map Daemon.id).Nodup)
    (hfreshId : ∀ d ∈ store, d.id ≠ newId) :
    (∀ e, get_daemon_by_handle store user_id handle = some e →
      ∃ e1, (upsert_daemon store user_id handle display_name p newId nowC nowU).1 = some e1 ∧
        e1 ∈ (upsert_daemon store user_id handle display_name p newId nowC nowU).2 ∧
        e1.id = e.id ∧ e1.user_id = user_id ∧ e1.handle = handle ∧
        e1.display_name = display_name ∧
        PatchApplied p e1 ∧
        PatchFrame { p with display_name := some display_name } e e1 ∧
        e1.updated_at = nowU ∧
        (p.homepage_json.isSome = true → e1.last_synced_at = some nowU) ∧
        (p.homepage_json = none → e1.last_synced_at = e.last_synced_at) ∧
        (∀ x ∈ store, ¬ x.id = e.id →
          x ∈ (upsert_daemon store user_id handle display_name p newId nowC nowU).2)) ∧
    (get_daemon_by_handle store user_id handle = none →
      ∃ e1, (upsert_daemon store user_id handle display_name p newId nowC nowU).1 = some e1 ∧
        e1 ∈ (upsert_daemon store user_id handle display_name p newId nowC nowU).2 ∧
        e1.id = newId ∧ e1.user_id = user_id ∧ e1.handle = handle ∧
        e1.display_name = display_name ∧ e1.created_at = nowC ∧
        PatchApplied p e1 ∧
        (∀ x ∈ store,
          x ∈ (upsert_daemon store user_id handle display_name p newId nowC nowU).2)) := by
  constructor
  · intro e he
    have hmem : e ∈ store := List.mem_of_find?_eq_some he
    have hpred := List.find?_some he
    simp only [Bool.and_eq_true, beq_iff_eq] at hpred
    have hu : upsert_daemon store user_id handle display_name p newId nowC nowU
        = update_daemon store e.id { p with display_name := some display_name } nowU := by
      simp only [upsert_daemon, he]
    have hne : patchNonempty { p with display_name := some display_name } = true := by
      simp [patchNonempty]
    have h12 := update_daemon_found store e.id
      { p with display_name := some display_name } nowU hne
    have hfid : store.find? (fun d => d.id == e.id) = some e :=
      find?_id_of_nodup store hids hmem
    have hret : (update_daemon store e.id
        { p with display_name := some display_name } nowU).1
        = some (applyPatch { p with display_name := some display_name } nowU e) := by
      rw [h12.1, hfid, Option.map_some']
    have hPA := patchApplied_applyPatch
      { p with display_name := some display_name } nowU e
    refine ⟨applyPatch { p with display_name := some display_name } nowU e,
      by rw [hu]; exact hret, ?_, rfl, hpred.1, hpred.2, by simp [applyPatch],
      ⟨fun v hv => by rw [hp] at hv; exact Option.noConfusion hv,
        hPA.2.1, hPA.2.2.1, hPA.2.2.2.1, hPA.2.2.2.2.1, hPA.2.2.2.2.2.1,
        hPA.2.2.2.2.2.2.1, hPA.2.2.2.2.2.2.2⟩,
      patchFrame_applyPatch { p with display_name := some display_name } nowU e,
      rfl, ?_, ?_, ?_⟩
    · rw [hu, h12.2]
      have hfix : (fun d => if d.id == e.id
          then applyPatch { p with display_name := some display_name } nowU d else d) e
          = applyPatch { p with display_name := some display_name } nowU e := by
        simp
      exact hfix ▸ List.mem_map_of_mem _ hmem
    · intro hh
      simp [applyPatch, hh]
    · intro hh
      simp [applyPatch, hh]
    · intro x hx hxne
      rw [hu, h12.2]
      exact mem_map_patch hx hxne _
  · intro hnone
    have hu : upsert_daemon store user_id handle display_name p newId nowC nowU
        = update_daemon (store ++ [createdRow newId user_id handle display_name
            (p.tagline.getD none) (p.lineage.getD none) nowC]) newId p nowU := by
      simp only [upsert_daemon, hnone, create_daemon]
    have hfind : (store ++ [createdRow newId user_id handle display_name
        (p.tagline.getD none) (p.lineage.getD none) nowC]).find?
        (fun d => d.id == newId)
        = some (createdRow newId user_id handle display_name
            (p.tagline.getD none) (p.lineage.getD none) nowC) := by
      rw [find?_append_of_none (fun x hx => by
        simp only [beq_eq_false_iff_ne, ne_eq]
        exact hfreshId x hx)]
      exact find?_cons_pos _ _ _ (by simp [createdRow])
    cases hpe : patchNonempty p with
    | true =>
      have h12 := update_daemon_found (store ++ [createdRow newId user_id handle
        display_name (p.tagline.getD none) (p.lineage.getD none) nowC]) newId p nowU hpe
      have hret := h12.1
      rw [hfind, Option.map_some'] at hret
      refine ⟨applyPatch p nowU (createdRow newId user_id handle display_name
          (p.tagline.getD none) (p.lineage.getD none) nowC),
        by rw [hu]; exact hret, ?_, rfl, rfl, rfl,
        by simp [applyPatch, hp, createdRow], rfl,
        patchApplied_applyPatch p nowU _, ?_⟩
      · rw [hu, h12.2]
        have hfix : (fun d => if d.id == newId then applyPatch p nowU d else d)
            (createdRow newId user_id handle display_name
              (p.tagline.getD none) (p.lineage.getD none) nowC)
            = applyPatch p nowU (createdRow newId user_id handle display_name
              (p.tagline.getD none) (p.lineage.getD none) nowC) := by
          simp [createdRow]
        exact hfix ▸ List.mem_map_of_mem _
          (List.mem_append_right _ (List.mem_singleton.mpr rfl))
      · intro x hx
        rw [hu, h12.2]
        exact mem_map_patch (List.mem_append_left _ hx) (hfreshId x hx) _
    | false =>
      have hupd : update_daemon (store ++ [createdRow newId user_id handle display_name
          (p.tagline.getD none) (p.lineage.getD none) nowC]) newId p nowU
          = (some (createdRow newId user_id handle display_name
              (p.tagline.getD none) (p.lineage.getD none) nowC),
             store ++ [createdRow newId user_id handle display_name
              (p.tagline.getD none) (p.lineage.getD none) nowC]) := by
        simp only [update_daemon, hpe, Bool.false_eq_true, if_false, get_daemon_by_id,
          hfind]
      have hallnone : p.display_name = none ∧ p.tagline = none ∧ p.lineage = none ∧
          p.visibility = none ∧ p.homepage_json = none ∧ p.stylesheet = none ∧
          p.tags_json = none ∧ p.identity_meta_json = none := by
        have h := hpe
        simp [patchNonempty] at h
        tauto
      refine ⟨createdRow newId user_id handle display_name
          (p.tagline.getD none) (p.lineage.getD none) nowC,
        by rw [hu, hupd], ?_, rfl, rfl, rfl, rfl, rfl,
        ⟨fun v hv => by rw [hallnone.1] at hv; exact Option.noConfusion hv,
         fun v hv => by rw [hallnone.2.1] at hv; exact Option.noConfusion hv,
         fun v hv => by rw [hallnone.2.2.1] at hv; exact Option.noConfusion hv,
         fun v hv => by rw [hallnone.2.2.2.1] at hv; exact Option.noConfusion hv,
         fun v hv => by rw [hallnone.2.2.2.2.1] at hv; exact Option.noConfusion hv,
         fun v hv => by rw [hallnone.2.2.2.2.2.1] at hv; exact Option.noConfusion hv,
         fun v hv => by rw [hallnone.2.2.2.2.2.2.1] at hv; exact Option.noConfusion hv,
         fun v hv => by rw [hallnone.2.2.2.2.2.2.2] at hv; exact Option.noConfusion hv⟩,
        ?_⟩
      · rw [hu, hupd]
        exact List.mem_append_right _ (List.mem_singleton.mpr rfl)
      · intro x hx
        rw [hu, hupd]
        exact List.mem_append_left _ hx

/-- Witness for C3: both branches at concrete inputs — updating the
existing row ("u1", "h") of [d0], and creating ("u9", "h9") in the empty
table. -/
theorem upsert_daemon_semantics_witness :
    (∃ e1, (upsert_daemon [d0] "u1" "h" "D2" noopPatch "dX" 5 9).1 = some e1 ∧
      e1 ∈ (upsert_daemon [d0] "u1" "h" "D2" noopPatch "dX" 5 9).2 ∧
      e1.id = d0.id ∧ e1.user_id = "u1" ∧ e1.handle = "h" ∧
      e1.display_name = "D2" ∧
      PatchApplied noopPatch e1 ∧
      PatchFrame { noopPatch with display_name := some "D2" } d0 e1 ∧
      e1.updated_at = 9 ∧
      (noopPatch.homepage_json.isSome = true → e1.last_synced_at = some 9) ∧
      (noopPatch.homepage_json = none → e1.last_synced_at = d0.last_synced_at) ∧
      (∀ x ∈ [d0], ¬ x.id = d0.id →
        x ∈ (upsert_daemon [d0] "u1" "h" "D2" noopPatch "dX" 5 9).2)) ∧
    (∃ e1, (upsert_daemon [] "u9" "h9" "D9" homepagePatch "dY" 5 9).1 = some e1 ∧
      e1 ∈ (upsert_daemon [] "u9" "h9" "D9" homepagePatch "dY" 5 9).2 ∧
      e1.id = "dY" ∧ e1.user_id = "u9" ∧ e1.handle = "h9" ∧
      e1.display_name = "D9" ∧ e1.created_at = 5 ∧
      PatchApplied homepagePatch e1 ∧
      (∀ x ∈ ([] : List Daemon),
        x ∈ (upsert_daemon [] "u9" "h9" "D9" homepagePatch "dY" 5 9).2)) :=
  ⟨(upsert_daemon_semantics [d0] "u1" "h" "D2" noopPatch "dX" 5 9 rfl
      (by simp) (by simp [d0])).1 d0 rfl,
   (upsert_daemon_semantics [] "u9" "h9" "D9" homepagePatch "dY" 5 9 rfl
      (by simp) (by simp)).2 rfl⟩

/-! ## C5: private profiles are NotFound on the public paths -/

/-- C5.  A profile whose visibility is "private" is converted to a 404
NotFound by both public path lookups — the JSON daemon-info endpoint and
the page-serving route — rather than returned. -/
theorem private_daemon_not_served
    (parseTags : String → Option (List String)) (pubUrl : String)
    (users : List User) (daemons : List Daemon) (username handle : String)
    (d : Daemon)
    (hfind : get_daemon_by_path users daemons username handle = some d)
    (hpriv : d.visibility = "private") :
    get_daemon_info parseTags pubUrl users daemons username handle
      = Except.error 404 ∧
    serve_daemon_homepage users daemons username handle = Except.error 404 := by
  constructor
  · simp [get_daemon_info, hfind, hpriv]
  · simp [serve_daemon_homepage, hfind, hpriv]

/-- Witness for C5 on a concrete one-user, one-private-daemon store. -/
theorem private_daemon_not_served_witness :
    get_daemon_info (fun _ => none) "https://geocass.hearthweave.org"
      [user0] [privD] "alice" "p" = Except.error 404 ∧
    serve_daemon_homepage [user0] [privD] "alice" "p" = Except.error 404 :=
  private_daemon_not_served (fun _ => none) "https://geocass.hearthweave.org"
    [user0] [privD] "alice" "p" privD rfl rfl

/-! ## C9: unlisted profiles — reachable by path, absent from the directory -/

theorem mem_of_mem_insertLe {α : Type} {le : α → α → Bool} {a x : α} {l : List α}
    (h : x ∈ insertLe le a l) : x = a ∨ x ∈ l := by
  induction l with
  | nil => simpa [insertLe] using h
  | cons b bs ih =>
    rw [insertLe] at h
    by_cases hle : le a b
    · rw [if_pos hle] at h
      simpa using List.mem_cons.mp h
    · rw [if_neg hle] at h
      rcases List.mem_cons.mp h with rfl | h2
      · exact Or.inr (List.mem_cons_self x bs)
      · rcases ih h2 with h3 | h3
        · exact Or.inl h3
        · exact Or.inr (List.mem_cons_of_mem b h3)

theorem mem_of_mem_sortLe {α : Type} {le : α → α → Bool} {x : α} {l : List α}
    (h : x ∈ sortLe le l) : x ∈ l := by
  induction l with
  | nil => simp [sortLe] at h
  | cons a as ih =>
    rw [sortLe] at h
    rcases mem_of_mem_insertLe h with rfl | h2
    · exact List.mem_cons_self x as
    · exact List.mem_cons_of_mem a (ih h2)

/-- Membership in the sorted row set implies membership in the filtered
join. -/
theorem mem_of_mem_directory_rows {users : List User} {daemons : List Daemon}
    {tag lineage : Option String} {sort : String} {r : Daemon × String}
    (h : r ∈ directory_rows users daemons tag lineage sort) :
    r ∈ (joinUsers users daemons).filter (fun x => publicMatch tag lineage x.1) := by
  simp only [directory_rows] at h
  by_cases hs1 : (sort == "recent") = true
  · rw [if_pos hs1] at h
    exact mem_of_mem_sortLe h
  · rw [if_neg hs1] at h
    by_cases hs2 : (sort == "name") = true
    · rw [if_pos hs2] at h
      exact mem_of_mem_sortLe h
    · rwa [if_neg hs2] at h

/-- Every row returned by the directory query satisfies the WHERE
predicate (in particular visibility = 'public'). -/
theorem get_public_daemons_match {users : List User} {daemons : List Daemon}
    {limit offset : Nat} {tag lineage : Option String} {sort : String}
    {r : Daemon × String}
    (hr : r ∈ get_public_daemons users daemons limit offset tag lineage sort) :
    publicMatch tag lineage r.1 = true := by
  have h1 : r ∈ directory_rows users daemons tag lineage sort :=
    List.mem_of_mem_drop (List.mem_of_mem_take hr)
  exact (List.mem_filter.mp (mem_of_mem_directory_rows h1)).2

/-- The visibility conjunct absorbs a pre-filter on visibility = 'public'. -/
theorem filter_publicMatch_absorb (daemons : List Daemon) (tag lineage : Option String) :
    (daemons.filter (fun x => x.visibility == "public")).filter (publicMatch tag lineage)
      = daemons.filter (publicMatch tag lineage) := by
  rw [List.filter_filter]
  apply List.filter_congr
  intro a _
  by_cases hA : (a.visibility == "public") = true
  · simp [hA]
  · simp [publicMatch, Bool.and_eq_true, hA]

/-- The tag-rebuild row filter likewise only sees public rows. -/
theorem filter_tagRows_absorb (daemons : List Daemon) :
    (daemons.filter (fun x => x.visibility == "public")).filter
        (fun d => d.visibility == "public" && d.tags_json.isSome)
      = daemons.filter (fun d => d.visibility == "public" && d.tags_json.isSome) := by
  rw [List.filter_filter]
  apply List.filter_congr
  intro a _
  by_cases hA : (a.visibility == "public") = true
  · simp [hA]
  · simp [hA]

/-- C9.  An unlisted profile behaves like a public one on the direct
(username, handle) paths — only "private" is converted to NotFound — yet it
never appears in directory browse results, and neither the public-profile
count nor the rebuilt tag aggregate is affected by any non-public row. -/
theorem unlisted_daemon_reachable_not_listed
    (parseTags : String → Option (List String)) (pubUrl : String)
    (users : List User) (daemons : List Daemon) (username handle : String)
    (d : Daemon) (tag lineage : Option String) (sort : String) (limit offset : Nat)
    (hfind : get_daemon_by_path users daemons username handle = some d)
    (hvis : d.visibility = "unlisted") :
    get_daemon_info parseTags pubUrl users daemons username handle
      = Except.ok (mkDaemonInfo parseTags pubUrl d username) ∧
    serve_daemon_homepage users daemons username handle = Except.ok (d, "index") ∧
    (∀ r ∈ get_public_daemons users daemons limit offset tag lineage sort,
      r.1.visibility = "public") ∧
    d ∉ (get_public_daemons users daemons limit offset tag lineage sort).map Prod.fst ∧
    count_public_daemons daemons tag lineage
      = count_public_daemons (daemons.filter (fun x => x.visibility == "public"))
          tag lineage ∧
    update_tag_counts parseTags daemons
      = update_tag_counts parseTags
          (daemons.filter (fun x => x.visibility == "public")) := by
  have hrowvis : ∀ r ∈ get_public_daemons users daemons limit offset tag lineage sort,
      r.1.visibility = "public" := by
    intro r hr
    have := get_public_daemons_match hr
    simp only [publicMatch, Bool.and_eq_true, beq_iff_eq] at this
    exact this.1.1
  refine ⟨?_, ?_, hrowvis, ?_, ?_, ?_⟩
  · simp [get_daemon_info, hfind, hvis]
  · simp [serve_daemon_homepage, hfind, hvis]
  · intro hd
    obtain ⟨r, hr, hrd⟩ := List.mem_map.mp hd
    have := hrowvis r hr
    rw [hrd, hvis] at this
    exact absurd this (by decide)
  · unfold count_public_daemons
    rw [filter_publicMatch_absorb]
  · unfold update_tag_counts
    rw [filter_tagRows_absorb]

/-- Witness for C9 on a concrete store holding one unlisted daemon. -/
theorem unlisted_daemon_reachable_not_listed_witness :
    get_daemon_info (fun _ => none) "https://geocass.hearthweave.org"
      [user0] [unlD] "alice" "u"
      = Except.ok (mkDaemonInfo (fun _ => none)
          "https://geocass.hearthweave.org" unlD "alice") ∧
    serve_daemon_homepage [user0] [unlD] "alice" "u" = Except.ok (unlD, "index") ∧
    (∀ r ∈ get_public_daemons [user0] [unlD] 10 0 none none "recent",
      r.1.visibility = "public") ∧
    unlD ∉ (get_public_daemons [user0] [unlD] 10 0 none none "recent").map Prod.fst ∧
    count_public_daemons [unlD] none none
      = count_public_daemons ([unlD].filter (fun x => x.visibility == "public"))
          none none ∧
    update_tag_counts (fun _ => none) [unlD]
      = update_tag_counts (fun _ => none)
          ([unlD].filter (fun x => x.visibility == "public")) :=
  unlisted_daemon_reachable_not_listed (fun _ => none)
    "https://geocass.hearthweave.org" [user0] [unlD] "alice" "u" unlD
    none none "recent" 10 0 rfl rfl

/-! ## C6: directory pagination -/

theorem length_insertLe {α : Type} (le : α → α → Bool) (a : α) (l : List α) :
    (insertLe le a l).length = l.length + 1 := by
  induction l with
  | nil => rfl
  | cons b bs ih =>
    rw [insertLe]
    by_cases hle : le a b
    · rw [if_pos hle]
      rfl
    · rw [if_neg hle, List.length_cons, ih, List.length_cons]

theorem length_sortLe {α : Type} (le : α → α → Bool) (l : List α) :
    (sortLe le l).length = l.length := by
  induction l with
  | nil => rfl
  | cons a as ih =>
    rw [sortLe, length_insertLe, ih, List.length_cons]

/-- Under referential integrity (every matching daemon row has its user
row), the joined filtered row count equals the unjoined count query. -/
theorem length_filter_joinUsers (users : List User) (daemons : List Daemon)
    (tag lineage : Option String)
    (hjoin : ∀ d ∈ daemons, publicMatch tag lineage d = true →
      ∃ u ∈ users, u.id = d.user_id) :
    ((joinUsers users daemons).filter (fun r => publicMatch tag lineage r.1)).length
      = (daemons.filter (publicMatch tag lineage)).length := by
  induction daemons with
  | nil => rfl
  | cons d ds ih =>
    have ihds := ih fun x hx h => hjoin x (List.mem_cons_of_mem d hx) h
    cases hf : users.find? (fun u => u.id == d.user_id) with
    | none =>
      have hpm : publicMatch tag lineage d = false := by
        cases hb : publicMatch tag lineage d with
        | false => rfl
        | true =>
          obtain ⟨u, hu, hid⟩ := hjoin d (List.mem_cons_self d ds) hb
          have := List.find?_eq_none.mp hf u hu
          simp [hid] at this
      simp only [joinUsers, List.filterMap_cons, hf] at ihds ⊢
      rw [List.filter_cons, if_neg (by simp [hpm])]
      exact ihds
    | some u =>
      simp only [joinUsers, List.filterMap_cons, hf, Option.map_some'] at ihds ⊢
      cases hb : publicMatch tag lineage d with
      | false =>
        rw [List.filter_cons, if_neg (by simp [hb]), List.filter_cons,
          if_neg (by simp [hb])]
        exact ihds
      | true =>
        rw [List.filter_cons, if_pos (by simpa using hb), List.filter_cons,
          if_pos (by simpa using hb), List.length_cons, List.length_cons, ihds]

theorem length_directory_rows (users : List User) (daemons : List Daemon)
    (tag lineage : Option String) (sort : String)
    (hjoin : ∀ d ∈ daemons, publicMatch tag lineage d = true →
      ∃ u ∈ users, u.id = d.user_id) :
    (directory_rows users daemons tag lineage sort).length
      = count_public_daemons daemons tag lineage := by
  rw [directory_rows, count_public_daemons]
  by_cases hs1 : (sort == "recent") = true
  · rw [if_pos hs1, length_sortLe]
    exact length_filter_joinUsers users daemons tag lineage hjoin
  · rw [if_neg hs1]
    by_cases hs2 : (sort == "name") = true
    · rw [if_pos hs2, length_sortLe]
      exact length_filter_joinUsers users daemons tag lineage hjoin
    · rw [if_neg hs2]
      exact length_filter_joinUsers users daemons tag lineage hjoin

/-- The natural-number formula (a + b - 1) / b computes the exact rational
ceiling of a / b (this is what math.ceil(total / per_page) evaluates). -/
theorem nat_ceil_div_eq (a b : Nat) (hb : 0 < b) :
    Nat.ceil ((a : ℚ) / (b : ℚ)) = (a + b - 1) / b := by
  have hbq : (0 : ℚ) < (b : ℚ) := by exact_mod_cast hb
  have hchar : ∀ c : Nat, (a + b - 1) / b ≤ c ↔ a ≤ b * c := by
    intro c
    rw [← Nat.ceilDiv_eq_add_pred_div]
    exact ceilDiv_le_iff_le_mul hb
  have hchar2 : ∀ c : Nat, Nat.ceil ((a : ℚ) / (b : ℚ)) ≤ c ↔ a ≤ b * c := by
    intro c
    rw [Nat.ceil_le, div_le_iff₀ hbq, mul_comm]
    exact_mod_cast Iff.rfl
  exact le_antisymm
    ((hchar2 _).mpr ((hchar _).mp le_rfl))
    ((hchar _).mpr ((hchar2 _).mp le_rfl))

/-- C6.  The directory browse handler returns total = the unpaginated
count, total_pages = the rational ceiling of total / per_page, and as page
p the slice of the sorted matching rows at offsets (p-1)*per_page ..
(p-1)*per_page + per_page - 1; with total = 45 and per_page = 20, page 3
has total_pages 3 and exactly the remaining 5 records. -/
theorem browse_directory_pagination
    (parseTags : String → Option (List String)) (pubUrl : String)
    (users : List User) (daemons : List Daemon) (tag lineage : Option String)
    (sort : String) (page per_page : Nat) (hpp : 0 < per_page)
    (hjoin : ∀ d ∈ daemons, publicMatch tag lineage d = true →
      ∃ u ∈ users, u.id = d.user_id) :
    (browse_core parseTags pubUrl users daemons tag lineage sort page per_page).total
      = count_public_daemons daemons tag lineage ∧
    (browse_core parseTags pubUrl users daemons tag lineage sort page per_page).total_pages
      = Nat.ceil
        (((browse_core parseTags pubUrl users daemons tag lineage sort page per_page).total
          : ℚ) / (per_page : ℚ)) ∧
    (browse_core parseTags pubUrl users daemons tag lineage sort page per_page).daemons.length
      = min per_page
        ((browse_core parseTags pubUrl users daemons tag lineage sort page per_page).total
          - (page - 1) * per_page) ∧
    (∀ i : Nat, i < per_page →
      ((browse_core parseTags pubUrl users daemons tag lineage sort page per_page).daemons)[i]?
        = ((directory_rows users daemons tag lineage sort)[(page - 1) * per_page + i]?).map
            (fun r => mkDaemonInfo parseTags pubUrl r.1 r.2)) ∧
    ((browse_core parseTags pubUrl users daemons tag lineage sort page per_page).total = 45 →
      per_page = 20 → page = 3 →
      (browse_core parseTags pubUrl users daemons tag lineage sort page per_page).total_pages
        = 3 ∧
      (browse_core parseTags pubUrl users daemons tag lineage sort page per_page).daemons.length
        = 5) := by
  have htot : (browse_core parseTags pubUrl users daemons tag lineage sort
      page per_page).total = count_public_daemons daemons tag lineage := rfl
  have htp : (browse_core parseTags pubUrl users daemons tag lineage sort
      page per_page).total_pages
      = ((browse_core parseTags pubUrl users daemons tag lineage sort
          page per_page).total + per_page - 1) / per_page := rfl
  have hlen : (browse_core parseTags pubUrl users daemons tag lineage sort
      page per_page).daemons.length
      = min per_page
        ((browse_core parseTags pubUrl users daemons tag lineage sort
          page per_page).total - (page - 1) * per_page) := by
    show ((get_public_daemons users daemons per_page ((page - 1) * per_page)
        tag lineage sort).map
        (fun r => mkDaemonInfo parseTags pubUrl r.1 r.2)).length = _
    rw [List.length_map, get_public_daemons, List.length_take, List.length_drop,
      length_directory_rows users daemons tag lineage sort hjoin, htot]
  refine ⟨htot, ?_, hlen, ?_, ?_⟩
  · rw [htp, nat_ceil_div_eq _ _ hpp]
  · intro i hi
    show ((get_public_daemons users daemons per_page ((page - 1) * per_page)
        tag lineage sort).map
        (fun r => mkDaemonInfo parseTags pubUrl r.1 r.2))[i]? = _
    rw [List.getElem?_map, get_public_daemons, List.getElem?_take, if_pos hi,
      List.getElem?_drop]
  · intro h45 h20 h3
    constructor
    · rw [htp, h45, h20]
    · rw [hlen, h45, h20, h3]
      decide

/-- Witness for C6: the 45-row public table browsed with per_page = 20,
page = 3, sorted by recency: total 45, 3 pages, 5 records on the last. -/
theorem browse_directory_pagination_witness :
    (browse_core (fun _ => none) "https://geocass.hearthweave.org"
      [user0] store45 none none "recent" 3 20).total = 45 ∧
    (browse_core (fun _ => none) "https://geocass.hearthweave.org"
      [user0] store45 none none "recent" 3 20).total_pages = 3 ∧
    (browse_core (fun _ => none) "https://geocass.hearthweave.org"
      [user0] store45 none none "recent" 3 20).daemons.length = 5 := by
  have hjoin : ∀ d ∈ store45, publicMatch none none d = true →
      ∃ u ∈ [user0], u.id = d.user_id := by
    intro d hd _
    simp only [store45, List.mem_map] at hd
    obtain ⟨i, _, rfl⟩ := hd
    exact ⟨user0, List.mem_singleton.mpr rfl, rfl⟩
  have h := browse_directory_pagination (fun _ => none)
    "https://geocass.hearthweave.org" [user0] store45 none none "recent" 3 20
    (by omega) hjoin
  have hcount : count_public_daemons store45 none none = 45 := by
    rw [count_public_daemons, List.filter_eq_self.mpr ?_]
    · simp [store45]
    · intro a ha
      simp only [store45, List.mem_map] at ha
      obtain ⟨i, _, rfl⟩ := ha
      rfl
  have htot : (browse_core (fun _ => none) "https://geocass.hearthweave.org"
      [user0] store45 none none "recent" 3 20).total = 45 := by
    rw [h.1, hcount]
  exact ⟨htot, (h.2.2.2.2 htot rfl rfl).1, (h.2.2.2.2 htot rfl rfl).2⟩

/-! ## C7: discovery any-match filtering -/

theorem mem_filterLimit {α : Type} {p : α → Bool} {limit : Nat} {l : List α} {x : α}
    (h : x ∈ filterLimit p limit l) : x ∈ l ∧ p x = true := by
  induction l generalizing limit with
  | nil => simp [filterLimit] at h
  | cons a as ih =>
    rw [filterLimit] at h
    by_cases hp : p a
    · rw [if_pos hp] at h
      rcases List.mem_cons.mp h with rfl | h2
      · exact ⟨List.mem_cons_self x as, hp⟩
      · by_cases hl : limit ≤ 1
        · rw [if_pos hl] at h2
          cases h2
        · rw [if_neg hl] at h2
          obtain ⟨hmem, hpx⟩ := ih h2
          exact ⟨List.mem_cons_of_mem a hmem, hpx⟩
    · rw [if_neg hp] at h
      obtain ⟨hmem, hpx⟩ := ih h
      exact ⟨List.mem_cons_of_mem a hmem, hpx⟩

theorem anyShared_iff (q m : List String) :
    anyShared q m = true ↔ ∃ v ∈ q, v ∈ m := by
  simp [anyShared]

/-- C7.  A profile is returned by discovery only if it passes every
supplied filter; a profile passes a supplied (truthy) filter list iff its
corresponding identity-metadata list shares at least one element with it;
and concretely a profile with values ["a","b"] passes the filter
["b","c"] and fails ["c","d"]. -/
theorem discover_any_match
    (parseMeta : String → Option IdentityMeta) (pubUrl : String)
    (users : List User) (daemons : List Daemon) (lineage : Option String)
    (values interests looking_for : Option (List String)) (limit : Nat) :
    (∀ e ∈ discover_daemons parseMeta pubUrl users daemons lineage values
        interests looking_for limit,
      ∃ r ∈ discover_candidates users daemons lineage limit,
        passesFilters parseMeta values interests looking_for r.1 = true ∧
        e = mkDiscoveryEntry pubUrl r) ∧
    (∀ d : Daemon,
      passesFilters parseMeta values interests looking_for d = true ↔
        ((∀ vs, listTruthy values = some vs →
            ∃ v ∈ vs, v ∈ (metaOf parseMeta d).values) ∧
         (∀ ls, listTruthy interests = some ls →
            ∃ v ∈ ls, v ∈ (metaOf parseMeta d).interests) ∧
         (∀ ls, listTruthy looking_for = some ls →
            ∃ v ∈ ls, v ∈ (metaOf parseMeta d).looking_for))) ∧
    (∀ d : Daemon,
      metaOf parseMeta d
        = { values := ["a", "b"], interests := [], looking_for := [] } →
      passesFilters parseMeta (some ["b", "c"]) none none d = true ∧
      passesFilters parseMeta (some ["c", "d"]) none none d = false) := by
  refine ⟨?_, ?_, ?_⟩
  · intro e he
    obtain ⟨r, hr, hre⟩ := List.mem_map.mp he
    obtain ⟨hmem, hpass⟩ := mem_filterLimit hr
    exact ⟨r, hmem, hpass, hre.symm⟩
  · intro d
    rw [passesFilters, Bool.and_eq_true, Bool.and_eq_true]
    constructor
    · rintro ⟨⟨h1, h2⟩, h3⟩
      refine ⟨?_, ?_, ?_⟩
      · intro vs hvs
        rw [hvs] at h1
        exact (anyShared_iff _ _).mp h1
      · intro ls hls
        rw [hls] at h2
        exact (anyShared_iff _ _).mp h2
      · intro ls hls
        rw [hls] at h3
        exact (anyShared_iff _ _).mp h3
    · rintro ⟨h1, h2, h3⟩
      refine ⟨⟨?_, ?_⟩, ?_⟩
      · cases hv : listTruthy values with
        | none => rfl
        | some vs => exact (anyShared_iff _ _).mpr (h1 vs hv)
      · cases hv : listTruthy interests with
        | none => rfl
        | some ls => exact (anyShared_iff _ _).mpr (h2 ls hv)
      · cases hv : listTruthy looking_for with
        | none => rfl
        | some ls => exact (anyShared_iff _ _).mpr (h3 ls hv)
  · intro d hm
    constructor
    · simp [passesFilters, listTruthy, hm, anyShared]
    · simp [passesFilters, listTruthy, hm, anyShared]

/-- Witness for C7 on a one-daemon store whose identity metadata carries
values ["a","b"]: the ["b","c"] filter passes, the ["c","d"] filter fails. -/
theorem discover_any_match_witness :
    passesFilters pmAB (some ["b", "c"]) none none dMeta = true ∧
    passesFilters pmAB (some ["c", "d"]) none none dMeta = false :=
  (discover_any_match pmAB "https://geocass.hearthweave.org" [user0]
      [dMeta] none (some ["b", "c"]) none none 20).2.2 dMeta rfl

/-! ## C8: per_page bounds validate rather than clamp -/

/-- C8 counterexample for the claim as stated.  A browse request with
per_page = 101 is rejected with a 422 validation error by the declared
Query(ge=1, le=100) bounds — it is not served with a clamped value. -/
theorem browse_per_page_not_clamped_cex :
    browse_directory (fun _ => none) "https://geocass.hearthweave.org"
      [user0] [d0] none none "recent" 1 101 = Except.error 422 := by
  rfl

/-- C8 amended.  per_page outside [1, 100] (or page < 1, or an invalid
sort) never reaches the handler: the request fails validation with 422;
an in-range request is served with the supplied value unchanged. -/
theorem browse_per_page_validation
    (parseTags : String → Option (List String)) (pubUrl : String)
    (users : List User) (daemons : List Daemon) (tag lineage : Option String)
    (sort : String) (page per_page : Int) :
    ((per_page < 1 ∨ 100 < per_page) →
      browse_directory parseTags pubUrl users daemons tag lineage sort page per_page
        = Except.error 422) ∧
    ((sort = "recent" ∨ sort = "name") → 1 ≤ page → 1 ≤ per_page → per_page ≤ 100 →
      browse_directory parseTags pubUrl users daemons tag lineage sort page per_page
        = Except.ok (browse_core parseTags pubUrl users daemons tag lineage sort
            page.toNat per_page.toNat)) := by
  constructor
  · intro hpp
    rw [browse_directory]
    by_cases hs : sort ≠ "recent" ∧ sort ≠ "name"
    · rw [if_pos hs]
    · rw [if_neg hs]
      by_cases hp : page < 1
      · rw [if_pos hp]
      · rw [if_neg hp, if_pos hpp]
  · intro hsort hpage hpp1 hpp2
    have hs : ¬ (sort ≠ "recent" ∧ sort ≠ "name") := by
      rcases hsort with h | h
      · exact fun hc => hc.1 h
      · exact fun hc => hc.2 h
    rw [browse_directory, if_neg hs, if_neg (by omega), if_neg (by omega)]

/-- Witness for C8 (amended): per_page = 0 is rejected, per_page = 20 is
served unchanged. -/
theorem browse_per_page_validation_witness :
    browse_directory (fun _ => none) "https://geocass.hearthweave.org"
      [user0] [d0] none none "recent" 1 0 = Except.error 422 ∧
    browse_directory (fun _ => none) "https://geocass.hearthweave.org"
      [user0] [d0] none none "recent" 1 20
      = Except.ok (browse_core (fun _ => none) "https://geocass.hearthweave.org"
          [user0] [d0] none none "recent" (Int.toNat 1) (Int.toNat 20)) :=
  ⟨(browse_per_page_validation (fun _ => none) "https://geocass.hearthweave.org"
      [user0] [d0] none none "recent" 1 0).1 (Or.inl (by omega)),
   (browse_per_page_validation (fun _ => none) "https://geocass.hearthweave.org"
      [user0] [d0] none none "recent" 1 20).2 (Or.inl rfl)
      (by omega) (by omega) (by omega)⟩

end GeoCass
